import Mathlib

/-!
Verification of the TalentScout hiring-assistant conversation engine.

The development embeds the conversation state machine (`app.py`), the
field-extraction heuristics and persistence layer (`data_handling.py`) and the
technical-question generator (`llm_integration.py`) as executable Lean
functions, and proves the stated properties about them.

Modelling conventions:
* Python strings are Lean `String`s; character-level work uses `List Char`.
  Character predicates (`\w`, `\s`, `isdigit`, `lower`) are modelled at ASCII
  precision, which is the precision at which the regular expressions of the
  source are written.
* The two external collaborators (the chat-completion call and the question
  generation API call) are oracles supplied per call through the `Oracle`
  structure, as is the success of the file-system write in
  `save_conversation` and the timestamp.  Python exceptions inside
  `save_conversation` are modelled with `Except`; the catch-all handler of the
  source corresponds to mapping any `Except.error` to the return value
  `false`.
* A ghost counter `saveCalls` counts invocations of `save_conversation`; the
  source has no such field, and nothing else reads it.
-/

namespace TalentScout

/-- Python truthiness of an optional string: `None` and `""` are falsy. -/
def truthy : Option String → Bool
  | none => false
  | some s => s != ""

/-- Python `v or d` where `v` is an optional string field and `d` a default. -/
def pyOr (v : Option String) (d : String) : String :=
  match v with
  | none => d
  | some s => if s = "" then d else s

/-- Python `str.lower` (ASCII precision). -/
def pyLower (cs : List Char) : List Char := cs.map Char.toLower

/-- Python whitespace (the `\s` class and `str.split`/`str.strip` default). -/
def pyIsSpace (c : Char) : Bool :=
  c == ' ' || c == '\t' || c == '\n' || c == '\r' || c == '\x0b' || c == '\x0c'

/-- `needle` is a prefix of `hay` (both as character lists). -/
def isPrefixL : List Char → List Char → Bool
  | [], _ => true
  | _ :: _, [] => false
  | a :: as, b :: bs => a == b && isPrefixL as bs

/-- Python `str.find`: index of the first occurrence of `needle`, if any. -/
def findSubIdx (needle : List Char) : List Char → Option Nat
  | [] => if isPrefixL needle [] then some 0 else none
  | c :: cs =>
    if isPrefixL needle (c :: cs) then some 0
    else (findSubIdx needle (cs)).map (· + 1)

/-- Python `needle in hay` (substring containment). -/
def containsSub (needle hay : List Char) : Bool := (findSubIdx needle hay).isSome

/-- Python `needle in hay` on `String`s. -/
def pyContains (needle hay : String) : Bool := containsSub needle.toList hay.toList

/-- Python `str.strip()` (both ends, default whitespace). -/
def pyStrip (cs : List Char) : List Char :=
  ((cs.dropWhile pyIsSpace).reverse.dropWhile pyIsSpace).reverse

/-- Helper for `pySplitWs`: `cur` is the reversed word being read. -/
def pySplitWsAux (cur : List Char) : List Char → List (List Char)
  | [] => if cur.isEmpty then [] else [cur.reverse]
  | c :: cs =>
    if pyIsSpace c then
      if cur.isEmpty then pySplitWsAux [] cs else cur.reverse :: pySplitWsAux [] cs
    else pySplitWsAux (c :: cur) cs

/-- Python `str.split()` with no argument: split on whitespace runs,
dropping empty pieces. -/
def pySplitWs (cs : List Char) : List (List Char) := pySplitWsAux [] cs

/-- Length of the longest prefix whose characters all satisfy `p`
(the extent a greedy `[...]+`/`[...]*` consumes). -/
def runLen (p : Char → Bool) : List Char → Nat
  | [] => 0
  | c :: cs => if p c then runLen p cs + 1 else 0

/-- The regex word class `\w` (ASCII): letters, digits, underscore. -/
def isWordChar (c : Char) : Bool := c.isAlphanum || c == '_'

/-- The local-part class `[A-Za-z0-9._%+-]` of the email pattern. -/
def isLocalChar (c : Char) : Bool :=
  c.isAlphanum || c == '.' || c == '_' || c == '%' || c == '+' || c == '-'

/-- The domain class `[A-Za-z0-9.-]` of the email pattern. -/
def isDomainChar (c : Char) : Bool := c.isAlphanum || c == '.' || c == '-'

/-- The TLD class `[A-Z|a-z]` of the email pattern (it really contains `|`). -/
def isTldChar (c : Char) : Bool := c.isAlpha || c == '|'

/-- Word-ness of an optional character; positions outside the string are
non-word, as in the regex `\b` semantics. -/
def isWordOpt : Option Char → Bool
  | none => false
  | some c => isWordChar c

/-- The regex word boundary `\b` between two adjacent positions. -/
def bnd (a b : Option Char) : Bool := isWordOpt a != isWordOpt b

/-- `[n, n-1, ..., 1]`: the order in which a greedy quantifier hands lengths
to its continuation while backtracking. -/
def descRange : Nat → List Nat
  | 0 => []
  | n + 1 => (n + 1) :: descRange n

/-- First `some` produced by `f` along the list, scanning left to right. -/
def firstSome {α β : Type} (f : α → Option β) : List α → Option β
  | [] => none
  | a :: as =>
    match f a with
    | some b => some b
    | none => firstSome f as

/-- After `domain\.` has been consumed: the TLD piece `[A-Z|a-z]{2,}\b` of the
email pattern, matched greedily against `ts`; returns the consumed length. -/
def tldTry (ts : List Char) : Option Nat :=
  firstSome
    (fun t => if 2 ≤ t && bnd ts[t - 1]? ts[t]? then some t else none)
    (descRange (runLen isTldChar ts))

/-- After `local@` has been consumed: the piece `[A-Za-z0-9.-]+\.[A-Z|a-z]{2,}\b`
of the email pattern matched greedily against `ds` with backtracking over the
split point; returns (domain length, TLD length). -/
def domTry (ds : List Char) : Option (Nat × Nat) :=
  firstSome
    (fun r =>
      if ds[r]? == some '.' then (tldTry (ds.drop (r + 1))).map (fun t => (r, t))
      else none)
    (descRange (runLen isDomainChar ds))

/-- Attempt of the email pattern
`\b[A-Za-z0-9._%+-]+@[A-Za-z0-9.-]+\.[A-Z|a-z]{2,}\b` at the start of `cs`,
where `prev` is the character just before `cs` (`none` at the start of the
input).  Returns the length of the (greedy, leftmost-biased) match. -/
def matchEmailAt (prev : Option Char) (cs : List Char) : Option Nat :=
  if bnd prev cs.head? then
    if 1 ≤ runLen isLocalChar cs && cs[runLen isLocalChar cs]? == some '@' then
      (domTry (cs.drop (runLen isLocalChar cs + 1))).map
        (fun rt => runLen isLocalChar cs + 1 + rt.1 + 1 + rt.2)
    else none
  else none

/-- `re.findall` scan for the email pattern: first position (with its match
length) at which the pattern matches, scanning positions left to right.  (The
attempt at the very end of the input always fails — the local part needs a
character — so the empty suffix is not tried.) -/
def searchFrom (prev : Option Char) (cs : List Char) (pos : Nat) : Option (Nat × Nat) :=
  match cs with
  | [] => none
  | c :: rest =>
    match matchEmailAt prev (c :: rest) with
    | some len => some (pos, len)
    | none => searchFrom (some c) rest (pos + 1)

/-- `re.findall(email_pattern, input)[0]`: the first email match, as text. -/
def emailFindFirst (cs : List Char) : Option (List Char) :=
  (searchFrom none cs 0).map (fun il => (cs.drop il.1).take il.2)

/-- The separator class `[-\s\.]` of the phone pattern. -/
def isSepChar (c : Char) : Bool := c == '-' || pyIsSpace c || c == '.'

/-- Consume one leading character matching `p` if present (a greedy `[...]?`);
returns how many characters were consumed and the rest. -/
def optSkip (p : Char → Bool) : List Char → (Nat × List Char)
  | [] => (0, [])
  | c :: cs => if p c then (1, cs) else (0, c :: cs)

/-- Consume exactly `n` digits (`[0-9]{n}`). -/
def exactDigits : Nat → List Char → Option (List Char)
  | 0, cs => some cs
  | _ + 1, [] => none
  | n + 1, c :: cs => if c.isDigit then exactDigits n cs else none

/-- Attempt of the phone pattern
`[\+]?[(]?[0-9]{3}[)]?[-\s\.]?[0-9]{3}[-\s\.]?[0-9]{4,6}` at the start of
`cs`.  Every optional element's class is disjoint from `[0-9]`, so the
pattern is matched without backtracking; returns the match length. -/
def matchPhoneAt (cs : List Char) : Option Nat :=
  let (a, r1) := optSkip (· == '+') cs
  let (b, r2) := optSkip (· == '(') r1
  match exactDigits 3 r2 with
  | none => none
  | some r3 =>
    let (c3, r4) := optSkip (· == ')') r3
    let (d, r5) := optSkip isSepChar r4
    match exactDigits 3 r5 with
    | none => none
    | some r6 =>
      let (e, r7) := optSkip isSepChar r6
      let dn := runLen Char.isDigit r7
      if 4 ≤ dn then some (a + b + 3 + c3 + d + 3 + e + min dn 6) else none

/-- `re.findall` scan for a pattern with no start anchor: try the attempt `f`
at each position left to right, returning its first result. -/
def scanFirst {α : Type} (f : List Char → Option α) : List Char → Option α
  | [] => f []
  | c :: cs =>
    match f (c :: cs) with
    | some r => some r
    | none => scanFirst f cs

/-- `re.findall(phone_pattern, input)[0]`: the first phone match, as text. -/
def phoneFindFirst : List Char → Option (List Char) :=
  scanFirst (fun suffix => (matchPhoneAt suffix).map (fun len => suffix.take len))

/-- Tail of experience pattern 1: the literal `years?` (only `year` is
required; the optional `s` constrains nothing further). -/
def expTail1 (cs : List Char) : Bool := isPrefixL ['y', 'e', 'a', 'r'] cs

/-- Tail of experience pattern 2: the literal `yrs`. -/
def expTail2 (cs : List Char) : Bool := isPrefixL ['y', 'r', 's'] cs

/-- Tail of experience pattern 3: `y\.?e\.?` (the final optional dot
constrains nothing). -/
def expTail3 (cs : List Char) : Bool :=
  match cs with
  | 'y' :: '.' :: 'e' :: _ => true
  | 'y' :: 'e' :: _ => true
  | _ => false

/-- Attempt of an experience pattern `(\d+)[\+]?\s*TAIL` at the start of `cs`;
all elements are forced (their classes are pairwise disjoint at the
boundaries), so no backtracking arises.  Returns the captured digit group. -/
def matchExpAt (tail : List Char → Bool) (cs : List Char) : Option (List Char) :=
  let d := runLen Char.isDigit cs
  if d == 0 then none
  else
    let r1 := cs.drop d
    let r2 := if r1.head? == some '+' then r1.drop 1 else r1
    let r3 := r2.drop (runLen pyIsSpace r2)
    if tail r3 then some (cs.take d) else none

/-- `re.findall(exp_pattern, lowered_input)[0]`: first captured digit group. -/
def expFindFirst (tail : List Char → Bool) : List Char → Option (List Char) :=
  scanFirst (matchExpAt tail)

/-- The candidate field set: both the `st.session_state.candidate_info`
dictionary of `app.py` and the pydantic `CandidateInfo` model of
`data_handling.py` (same keys, all optional strings, all initially `None`). -/
structure CandidateInfo where
  name : Option String
  email : Option String
  phone : Option String
  experience : Option String
  position : Option String
  location : Option String
  tech_stack : Option String
deriving Repr, DecidableEq

/-- The initial `candidate_info` dictionary (`app.py`, session-state init). -/
def initialCandidateInfo : CandidateInfo :=
  ⟨none, none, none, none, none, none, none⟩

/-- `job_titles` of `extract_candidate_info`. -/
def job_titles : List String :=
  ["developer", "engineer", "analyst", "manager", "designer",
   "architect", "consultant", "specialist", "administrator"]

/-- `tech_keywords` of `extract_candidate_info`. -/
def tech_keywords : List String :=
  ["python", "java", "javascript", "js", "typescript", "ts", "c#", "c++",
   "ruby", "php", "go", "rust", "swift", "kotlin", "react", "angular",
   "vue", "node", "django", "flask", "spring", "rails", "laravel",
   "aws", "azure", "gcp", "sql", "nosql", "mongodb", "mysql",
   "postgresql", "oracle", "docker", "kubernetes", "devops", "ml",
   "ai", "data science", "frontend", "backend", "fullstack"]

/-- The name block of `extract_candidate_info` (greeting stage only): up to
three whitespace tokens, rejected when short or containing a greeting word. -/
def name_step (current_stage : String) (cs : List Char) (info : CandidateInfo) :
    CandidateInfo :=
  if current_stage = "greeting" ∧ ¬ truthy info.name then
    let words := pySplitWs (pyStrip cs)
    if 1 ≤ words.length then
      let potential := List.intercalate [' '] (words.take 3)
      if 2 < potential.length ∧
          ¬ (["hi", "hello", "hey"].any fun w =>
              containsSub w.toList (pyLower potential)) then
        { info with name := some (String.mk potential) }
      else info
    else info
  else info

/-- The email block of `extract_candidate_info`: when the field is falsy and
the input holds both `@` and `.`, the first email-pattern match is stored. -/
def email_step (cs : List Char) (info : CandidateInfo) : CandidateInfo :=
  if ¬ truthy info.email ∧ containsSub ['@'] cs ∧ containsSub ['.'] cs then
    match emailFindFirst cs with
    | some m => { info with email := some (String.mk m) }
    | none => info
  else info

/-- The phone block of `extract_candidate_info`. -/
def phone_step (cs : List Char) (info : CandidateInfo) : CandidateInfo :=
  if ¬ truthy info.phone ∧ cs.any Char.isDigit then
    match phoneFindFirst cs with
    | some m => { info with phone := some (String.mk m) }
    | none => info
  else info

/-- The experience block of `extract_candidate_info`: three patterns tried
in order against the lowered input. -/
def experience_step (cs : List Char) (info : CandidateInfo) : CandidateInfo :=
  if ¬ truthy info.experience ∧ cs.any Char.isDigit then
    let lcs := pyLower cs
    let g :=
      match expFindFirst expTail1 lcs with
      | some g => some g
      | none =>
        match expFindFirst expTail2 lcs with
        | some g => some g
        | none => expFindFirst expTail3 lcs
    match g with
    | some g => { info with experience := some (String.mk g ++ " years") }
    | none => info
  else info

/-- The position block of `extract_candidate_info`: a 50-character window of
the raw input around the first job-title hit in the lowered input. -/
def position_step (cs : List Char) (info : CandidateInfo) : CandidateInfo :=
  if ¬ truthy info.position ∧ 2 ≤ (pySplitWs (pyStrip cs)).length then
    match firstSome (fun t => findSubIdx t.toList (pyLower cs)) job_titles with
    | some index =>
      let start := index - 20
      let stop := min cs.length (index + 30)
      { info with position := some (String.mk (pyStrip ((cs.take stop).drop start))) }
    | none => info
  else info

/-- The tech-stack block of `extract_candidate_info`: fires only in stage
`"collecting_info"` and with at least three words of input. -/
def tech_stack_step (current_stage : String) (cs : List Char)
    (info : CandidateInfo) : CandidateInfo :=
  if ¬ truthy info.tech_stack ∧ current_stage = "collecting_info" ∧
      3 ≤ (pySplitWs cs).length then
    let found := tech_keywords.filter fun t => containsSub t.toList (pyLower cs)
    if found ≠ [] then { info with tech_stack := some (String.intercalate ", " found) }
    else info
  else info

/-- `extract_candidate_info` (`data_handling.py`): the stage gate, then the
name, email, phone, experience, position and tech-stack blocks in source
order, each reading the field set left by the previous block. -/
def extract_candidate_info (user_input : String) (current_info : CandidateInfo)
    (current_stage : String) : CandidateInfo :=
  if current_stage ≠ "greeting" ∧ current_stage ≠ "collecting_info" ∧
      current_stage ≠ "tech_stack_confirmation" then
    current_info
  else
    let cs := user_input.toList
    tech_stack_step current_stage cs (position_step cs (experience_step cs
      (phone_step cs (email_step cs (name_step current_stage cs current_info)))))

/-- Digits left after stripping non-digit characters
(`''.join(filter(str.isdigit, v))`). -/
def digitCount (s : String) : Nat := (s.toList.filter Char.isDigit).length

/-- `re.match(email_pattern, v)`: the anchored check of the pydantic
`validate_email` validator (a match at position 0 only). -/
def emailValid (v : String) : Bool := (matchEmailAt none v.toList).isSome

/-- The pydantic `validate_email` validator of `CandidateInfo`: `None` and
`""` are passed through (the `if v:` guard); otherwise the anchored email
pattern must match or a `ValueError` is raised. -/
def validate_email : Option String → Except String (Option String)
  | none => .ok none
  | some v =>
    if v = "" then .ok (some v)
    else if emailValid v then .ok (some v)
    else .error "Invalid email format"

/-- The pydantic `validate_phone` validator of `CandidateInfo`: `None` and
`""` are passed through (the `if v:` guard); otherwise the value must hold at
least 10 digits after stripping non-digits or a `ValueError` is raised. -/
def validate_phone : Option String → Except String (Option String)
  | none => .ok none
  | some v =>
    if v = "" then .ok (some v)
    else if 10 ≤ digitCount v then .ok (some v)
    else .error "Phone number must have at least 10 digits"

/-- The pydantic `ConversationRecord` model. -/
structure ConversationRecord where
  timestamp : String
  candidate_info : CandidateInfo
  conversation : List String
  technical_questions : List String
deriving Repr, DecidableEq

/-- The body of `save_conversation`'s `try:` block, with each Python
exception rendered as `Except.error`: pydantic validation while the
`ConversationRecord` is constructed, then the filename construction (which
calls `.lower()` on the `name` value and so raises `AttributeError` when the
name is `None`), then the file write, whose success the `ioOk` oracle
decides.  On success the value is the record that was written. -/
def save_conversation_core (ioOk : Bool) (timestamp : String)
    (candidate_info : CandidateInfo) (messages : List String)
    (technical_questions : List String) : Except String ConversationRecord :=
  match validate_email candidate_info.email with
  | .error e => .error e
  | .ok _ =>
    match validate_phone candidate_info.phone with
    | .error e => .error e
    | .ok _ =>
      let record : ConversationRecord :=
        { timestamp := timestamp, candidate_info := candidate_info,
          conversation := messages, technical_questions := technical_questions }
      match candidate_info.name with
      | none => .error "AttributeError: NoneType object has no attribute lower"
      | some _ =>
        if ioOk then .ok record else .error "OSError: write failed"

/-- `save_conversation` (`data_handling.py`): returns `True` on success; the
catch-all `except Exception` handler turns any failure into `False`. -/
def save_conversation (ioOk : Bool) (timestamp : String)
    (candidate_info : CandidateInfo) (messages : List String)
    (technical_questions : List String) : Bool :=
  match save_conversation_core ioOk timestamp candidate_info messages technical_questions with
  | .ok _ => true
  | .error _ => false

/-! ## `llm_integration.py` -/

/-- The per-call environment of the external collaborators: the
chat-completion reply handed back for this turn, the(-absence of the) OpenAI
API key, the raw question-generation completion (or its failure), whether the
file-system write of `save_conversation` succeeds, and the timestamp. -/
structure Oracle where
  llmResponse : String
  api_key : Option String
  apiCall : String → Except String String
  ioOk : Bool
  timestamp : String

/-- The five canned Python questions of `get_mock_technical_questions`. -/
def python_questions : List String :=
  ["Can you explain the difference between a list and a tuple in Python?",
   "How do you handle exceptions in Python?",
   "What is the difference between __init__ and __new__ in Python classes?",
   "How does memory management work in Python?",
   "Can you explain decorators and provide a use case?"]

/-- The five canned JavaScript questions of `get_mock_technical_questions`. -/
def javascript_questions : List String :=
  ["What's the difference between let, const, and var in JavaScript?",
   "Can you explain closures in JavaScript?",
   "How does prototypal inheritance work?",
   "What are Promises and how do they differ from callbacks?",
   "How would you optimize the performance of a JavaScript application?"]

/-- The five canned React questions of `get_mock_technical_questions`. -/
def react_questions : List String :=
  ["What is the virtual DOM in React and how does it work?",
   "Explain the component lifecycle in React.",
   "What's the difference between state and props?",
   "How do you handle side effects in React components?",
   "What are hooks and how have they changed React development?"]

/-- The five canned Java questions of `get_mock_technical_questions`. -/
def java_questions : List String :=
  ["What is the difference between an interface and an abstract class in Java?",
   "How does garbage collection work in Java?",
   "Explain the principles of SOLID in Java.",
   "What are the new features introduced in Java 8?",
   "How would you handle concurrency in a Java application?"]

/-- The five canned SQL questions of `get_mock_technical_questions`. -/
def sql_questions : List String :=
  ["What's the difference between INNER JOIN and LEFT JOIN?",
   "How would you optimize a slow SQL query?",
   "Explain normalization and when you might denormalize a database.",
   "What are indexes and how do they work?",
   "How would you handle large dataset operations in SQL?"]

/-- The five canned AWS questions of `get_mock_technical_questions`. -/
def aws_questions : List String :=
  ["What AWS services would you use for a highly available web application?",
   "Explain the difference between EC2, ECS, and Lambda.",
   "How would you design a scalable architecture on AWS?",
   "What security best practices would you implement in AWS?",
   "How would you monitor and troubleshoot issues in an AWS environment?"]

/-- The five canned DevOps questions of `get_mock_technical_questions`. -/
def devops_questions : List String :=
  ["Explain the CI/CD pipeline and its benefits.",
   "What containerization technologies have you worked with?",
   "How would you handle scaling in a microservices architecture?",
   "What monitoring and alerting tools have you used?",
   "How do you approach infrastructure as code?"]

/-- The `tech_questions` dictionary of `get_mock_technical_questions`, in
Python dict insertion (= iteration) order. -/
def mock_tech_table : List (String × List String) :=
  [("python", python_questions), ("javascript", javascript_questions),
   ("react", react_questions), ("java", java_questions),
   ("sql", sql_questions), ("aws", aws_questions),
   ("devops", devops_questions)]

/-- `get_mock_technical_questions` (`llm_integration.py`): the lowered tech
stack is matched against the table keywords in dict order, matching groups
are concatenated; with no hit five generic questions mentioning the lowered
stack are produced; at most 5 questions are returned. -/
def get_mock_technical_questions (tech_stack : String) : List String :=
  let ts := pyLower tech_stack.toList
  let questions :=
    ((mock_tech_table.filter fun kv => containsSub kv.1.toList ts).map
      Prod.snd).flatten
  if questions = [] then
    ["Could you explain your experience with " ++ String.mk ts ++ "?",
     "What projects have you worked on using " ++ String.mk ts ++ "?",
     "What challenges have you faced when working with " ++ String.mk ts ++ "?",
     "How do you stay updated with the latest developments in " ++ String.mk ts ++ "?",
     "Can you describe a complex problem you solved using " ++ String.mk ts ++ "?"]
  else questions.take 5

/-- Python `text.split('\n')`. -/
def splitOnNl (cs : List Char) : List (List Char) :=
  match cs with
  | [] => [[]]
  | c :: rest =>
    let r := splitOnNl rest
    if c = '\n' then [] :: r
    else (c :: r.headD []) :: r.tail

/-- The generation prompt built inside `generate_technical_questions`. -/
def gen_questions_prompt (num_questions : Nat) (tech_stack : String) : String :=
  "You are an expert technical interviewer for a tech recruitment agency.\nGenerate "
    ++ toString num_questions
    ++ " technical questions to assess a candidate's proficiency in the specified tech stack.\nThe questions should be challenging but appropriate for an initial screening.\nEach question should focus on a different aspect of the technology.\nFormat the output as a simple list of questions without any introductory text or numbering.\n\nTech stack: "
    ++ tech_stack

/-- `generate_technical_questions` (`llm_integration.py`) with
`num_questions = 5` (the only call site uses the default): a falsy tech stack
short-circuits; without an API key the mock questions are used; otherwise the
API completion is split into lines, stripped, filtered to lines ending in
`?`, with the mock questions as the fallback on an API exception. -/
def generate_technical_questions (o : Oracle) (tech_stack : String) : List String :=
  if tech_stack = "" then
    ["Could you tell me about your technical skills and experience?"]
  else if ¬ truthy o.api_key then
    get_mock_technical_questions tech_stack
  else
    match o.apiCall (gen_questions_prompt 5 tech_stack) with
    | .error _ => get_mock_technical_questions tech_stack
    | .ok text =>
      let questions := ((splitOnNl (pyStrip text.toList)).map pyStrip).filter
        fun l => l ≠ []
      let questions := questions.filter fun l => l.getLast? == some '?'
      if questions = [] then
        ["Could you explain your experience with " ++ tech_stack ++ "?"]
      else questions.map String.mk

/-! ## `app.py`: session state and the stage machine -/

/-- `st.session_state` as `process_user_input` touches it.  `messages` is
appended to only by the host-UI code outside `process_user_input`; it never
influences the state machine.  `saveCalls` is a ghost counter of
`save_conversation` invocations (not a field of the source). -/
structure SessionState where
  messages : List String
  candidate_info : CandidateInfo
  current_stage : String
  tech_questions : List String
  question_index : Nat
  conversation_ended : Bool
  saveCalls : Nat
deriving Repr, DecidableEq

/-- The canonical stage ordering of the spec (§3 ConversationStage). -/
def canonical_stages : List String :=
  ["greeting", "collecting_name", "collecting_email", "collecting_phone",
   "collecting_position", "collecting_experience", "collecting_tech_stack",
   "tech_stack_confirmation", "technical_questions", "farewell"]

/-- Index of a stage in the canonical ordering. -/
def stageIdx (st : String) : Nat :=
  if st = "collecting_name" then 1
  else if st = "collecting_email" then 2
  else if st = "collecting_phone" then 3
  else if st = "collecting_position" then 4
  else if st = "collecting_experience" then 5
  else if st = "collecting_tech_stack" then 6
  else if st = "tech_stack_confirmation" then 7
  else if st = "technical_questions" then 8
  else if st = "farewell" then 9
  else 0

/-- The session state as `app.py` initialises it. -/
def initialState : SessionState where
  messages := []
  candidate_info := initialCandidateInfo
  current_stage := "greeting"
  tech_questions := []
  question_index := 0
  conversation_ended := false
  saveCalls := 0

/-- The closing message of `end_conversation` (an f-string over the
candidate fields with `or`-defaults). -/
def closing_message (ci : CandidateInfo) : String :=
  "Thank you for taking the time to chat with me, " ++ pyOr ci.name "candidate"
    ++ "! \n\nI've collected your information and technical responses, which will be reviewed by our recruitment team. If your profile matches any of our current openings, a recruiter will contact you at "
    ++ pyOr ci.email "your email address" ++ " or " ++ pyOr ci.phone "your phone number"
    ++ " for the next steps in the process.\n\nBest of luck with your job search, and we hope to speak with you again soon!\n\n- TalentScout Hiring Assistant"

/-- The fixed notice returned once `conversation_ended` is set. -/
def session_ended_notice : String :=
  "The conversation has ended. Please refresh the page to start a new session."

/-- `end_conversation` (`app.py`): marks the conversation ended, builds the
closing message, calls `save_conversation` (its Boolean result is discarded)
and returns the message.  The ghost field `saveCalls` counts the call. -/
def end_conversation (o : Oracle) (s : SessionState) : SessionState × String :=
  let s1 : SessionState := { s with conversation_ended := true }
  let msg := closing_message s1.candidate_info
  let _saved := save_conversation o.ioOk o.timestamp s1.candidate_info s1.messages
    s1.tech_questions
  ({ s1 with saveCalls := s1.saveCalls + 1 }, msg)

/-- The position-dependent tech-stack prompt built in the
`collecting_experience` branch of `handle_stage_transitions`. -/
def tech_stack_question (position : String) : String :=
  let p := String.mk (pyLower position.toList)
  let base := "Please list your technical skills relevant to this position. "
  if pyContains "web" p || pyContains "front" p then
    base ++ "For example: HTML, CSS, JavaScript, React, Angular, Vue, etc."
  else if pyContains "back" p then
    base ++ "For example: Node.js, Python, Java, PHP, Ruby, databases, etc."
  else if pyContains "data" p then
    base ++ "For example: Python, R, SQL, Pandas, Matplotlib, machine learning libraries, etc."
  else if pyContains "devops" p then
    base ++ "For example: Docker, Kubernetes, AWS, CI/CD, Linux, etc."
  else if pyContains "mobile" p then
    base ++ "For example: Swift, Kotlin, React Native, Flutter, etc."
  else
    base ++ "For example: programming languages, frameworks, tools, and technologies you're proficient in."

/-- `handle_stage_transitions` (`app.py`): the elif chain over
`(current_stage, truthiness of the freshly extracted fields)`.  Notes kept
from the source: the `collecting_experience` branch reads
`info["position"].lower()` (it would raise if `position` were `None`, which
no execution reaches — modelled with the empty-string default); the
`tech_stack_confirmation` branch indexes `tech_questions[0]`, whose
non-emptiness `generate_technical_questions` guarantees. -/
def handle_stage_transitions (o : Oracle) (assistant_response user_input : String)
    (s : SessionState) : SessionState × String :=
  let info := s.candidate_info
  if s.current_stage = "greeting" ∧ String.mk (pyStrip (pyLower user_input.toList)) = "hey" then
    ({ s with current_stage := "collecting_name" },
      "Hello! I'm TalentScout, an AI hiring assistant. I'll be conducting your initial screening interview. Could you please tell me your full name?")
  else if s.current_stage = "greeting" ∧ truthy info.name then
    ({ s with current_stage := "collecting_email" },
      "Thank you, " ++ info.name.getD "" ++ "! What's your email address?")
  else if s.current_stage = "collecting_email" ∧ truthy info.email then
    ({ s with current_stage := "collecting_phone" },
      "Great! Now, could you please provide your phone number?")
  else if s.current_stage = "collecting_phone" ∧ truthy info.phone then
    ({ s with current_stage := "collecting_position" },
      "Thanks! What area or position would you like to work in? (e.g., Web Development, Data Science, DevOps, etc.)")
  else if s.current_stage = "collecting_position" ∧ truthy info.position then
    ({ s with current_stage := "collecting_experience" },
      "Got it! How many years of experience do you have in " ++ info.position.getD "" ++ "?")
  else if s.current_stage = "collecting_experience" ∧ truthy info.experience then
    ({ s with current_stage := "collecting_tech_stack" },
      "Thank you! " ++ tech_stack_question (info.position.getD ""))
  else if s.current_stage = "collecting_tech_stack" ∧ truthy info.tech_stack then
    ({ s with current_stage := "tech_stack_confirmation" },
      "Thank you for sharing your skills in " ++ info.tech_stack.getD ""
        ++ ". Is there anything else you'd like to add before we move on to some technical questions?")
  else if s.current_stage = "tech_stack_confirmation" ∧ s.tech_questions = [] then
    let position_context :=
      if truthy info.position then "Position: " ++ info.position.getD "" else ""
    let qs := generate_technical_questions o
      (position_context ++ " Tech stack: " ++ info.tech_stack.getD "None")
    ({ s with tech_questions := qs, current_stage := "technical_questions" },
      "Great! Now I'll ask you some technical questions based on your experience.\n\n"
        ++ qs.headD "")
  else if s.current_stage = "technical_questions" then
    let s1 : SessionState := { s with question_index := s.question_index + 1 }
    if s1.question_index < s1.tech_questions.length then
      (s1, "Thank you for your answer. Next question:\n\n"
        ++ s1.tech_questions.getD s1.question_index "")
    else
      end_conversation o { s1 with current_stage := "farewell" }
  else
    (s, assistant_response)

/-- The exit keywords of `process_user_input`. -/
def exit_keywords : List String := ["exit", "quit", "bye", "goodbye", "end", "stop"]

/-- The exit-keyword test: any keyword a case-insensitive substring of the
input. -/
def containsExit (user_input : String) : Bool :=
  exit_keywords.any fun kw => containsSub kw.toList (pyLower user_input.toList)

/-- `process_user_input` (`app.py`): the ended-notice guard, the
exit-keyword short circuit, field extraction, then stage handling of the
oracle's chat reply.  Lines 76–103 of the source only assemble the context
bundle for the model call and touch no state, so the model call is the
oracle value `o.llmResponse`. -/
def process_user_input (o : Oracle) (user_input : String) (s : SessionState) :
    SessionState × String :=
  if s.conversation_ended then
    (s, session_ended_notice)
  else if containsExit user_input ∧ s.current_stage ≠ "farewell" then
    end_conversation o { s with current_stage := "farewell" }
  else
    let s1 : SessionState :=
      { s with candidate_info :=
          extract_candidate_info user_input s.candidate_info s.current_stage }
    let assistant_response := o.llmResponse
    handle_stage_transitions o assistant_response user_input s1

/-- The session states reachable from the initial session state through
calls to `process_user_input`, with the host UI free to append chat messages
between calls. -/
inductive Reachable : SessionState → Prop
  | init : Reachable initialState
  | step (o : Oracle) (input : String) {s : SessionState} :
      Reachable s → Reachable (process_user_input o input s).1
  | ui (msgs : List String) {s : SessionState} :
      Reachable s → Reachable { s with messages := msgs }

/-! ## Specification-side predicates -/

/-- Declarative reading of the email pattern body
`[A-Za-z0-9._%+-]+@[A-Za-z0-9.-]+\.[A-Z|a-z]{2,}`: a non-empty local part,
`@`, a non-empty domain part, `.`, and a TLD of at least two characters.
Written from the pattern text, independently of the matcher. -/
def EmailShape (m : List Char) : Prop :=
  ∃ lp dp tp, m = lp ++ '@' :: (dp ++ '.' :: tp) ∧
    lp ≠ [] ∧ lp.all isLocalChar ∧ dp ≠ [] ∧ dp.all isDomainChar ∧
    2 ≤ tp.length ∧ tp.all isTldChar

/-- A match of the full email pattern at the start of `cs`, with `prev` the
character before `cs`: an email-shaped prefix flanked by word boundaries. -/
def EmailDecomp (prev : Option Char) (cs : List Char) : Prop :=
  ∃ m rest, cs = m ++ rest ∧ EmailShape m ∧
    bnd prev m.head? = true ∧ bnd m.getLast? rest.head? = true

/-- The input `cs` contains a match of the email pattern starting at
position `i`. -/
def MatchesAt (cs : List Char) (i : Nat) : Prop :=
  ∃ pre rest, cs = pre ++ rest ∧ pre.length = i ∧ EmailDecomp pre.getLast? rest

/-- The state invariant maintained by `process_user_input` from the initial
state: the stage is one of the canonical ten, the stage is `"farewell"`
exactly when the conversation is flagged ended, the tech-stack field is
still unset, and the stage machine has not produced
`"tech_stack_confirmation"`. -/
def SessionInv (s : SessionState) : Prop :=
  s.current_stage ∈ canonical_stages ∧
  (s.current_stage = "farewell" ↔ s.conversation_ended = true) ∧
  s.candidate_info.tech_stack = none ∧
  s.current_stage ≠ "tech_stack_confirmation"

/-- A concrete oracle for witnesses: no API key, offline question API. -/
def exOracle : Oracle where
  llmResponse := "ok"
  api_key := none
  apiCall := fun _ => Except.error "offline"
  ioOk := true
  timestamp := "2026-01-01 00:00:00"

/-- The concrete state of the C3 scenario: stage `collecting_experience`,
position `"Backend Developer"`, experience unset. -/
def c3_state : SessionState :=
  { initialState with
      current_stage := "collecting_experience",
      candidate_info := { initialCandidateInfo with position := some "Backend Developer" } }

/-- The concrete state of the C7 scenario: stage `technical_questions`,
question cursor 4, five stored questions. -/
def c7_state : SessionState :=
  { initialState with
      current_stage := "technical_questions",
      question_index := 4,
      tech_questions := ["q1?", "q2?", "q3?", "q4?", "q5?"] }

/-! ## Lemmas on the scanning helpers -/

theorem runLen_le_length (p : Char → Bool) : ∀ cs : List Char, runLen p cs ≤ cs.length
  | [] => by simp [runLen]
  | c :: cs => by
    by_cases h : p c <;> simp [runLen, h]
    exact runLen_le_length p cs

theorem runLen_append_all (p : Char → Bool) (xs ys : List Char) (h : xs.all p) :
    runLen p (xs ++ ys) = xs.length + runLen p ys := by
  induction xs with
  | nil => simp
  | cons c cs ih =>
    simp only [List.all_cons, Bool.and_eq_true] at h
    simp [runLen, h.1, ih h.2]
    omega

theorem runLen_cons_false (p : Char → Bool) (c : Char) (cs : List Char)
    (h : p c = false) : runLen p (c :: cs) = 0 := by
  simp [runLen, h]

theorem all_take_of_le_runLen (p : Char → Bool) :
    ∀ (cs : List Char) (r : Nat), r ≤ runLen p cs → (cs.take r).all p
  | _, 0, _ => by simp
  | [], r + 1, h => by simp [runLen] at h
  | c :: cs, r + 1, h => by
    by_cases hc : p c
    · simpa [hc] using all_take_of_le_runLen p cs r (by simpa [runLen, hc] using h)
    · simp [runLen, hc] at h

theorem getElem?_runLen_false (p : Char → Bool) :
    ∀ (cs : List Char) (c : Char), cs[runLen p cs]? = some c → p c = false
  | [], c, h => by simp at h
  | a :: cs, c, h => by
    by_cases ha : p a
    · exact getElem?_runLen_false p cs c (by simpa [runLen, ha] using h)
    · simp [runLen, ha] at h
      subst h
      simpa using ha

theorem firstSome_eq_some {α β : Type} (f : α → Option β) :
    ∀ (l : List α) (b : β), firstSome f l = some b → ∃ a ∈ l, f a = some b
  | [], b, h => by simp [firstSome] at h
  | a :: as, b, h => by
    unfold firstSome at h
    cases hfa : f a with
    | some b' =>
      rw [hfa] at h
      exact ⟨a, by simp, by simpa [hfa] using h⟩
    | none =>
      rw [hfa] at h
      obtain ⟨x, hx, hfx⟩ := firstSome_eq_some f as b h
      exact ⟨x, by simp [hx], hfx⟩

theorem firstSome_isSome {α β : Type} (f : α → Option β) :
    ∀ (l : List α) (a : α), a ∈ l → (f a).isSome → (firstSome f l).isSome
  | [], a, ha, _ => by simp at ha
  | x :: as, a, ha, hf => by
    unfold firstSome
    cases hfx : f x with
    | some b => simp
    | none =>
      rcases List.mem_cons.mp ha with h | h
      · subst h; rw [hfx] at hf; simp at hf
      · exact firstSome_isSome f as a h hf

theorem mem_descRange : ∀ (n r : Nat), r ∈ descRange n ↔ 1 ≤ r ∧ r ≤ n
  | 0, r => by simp [descRange]; omega
  | n + 1, r => by
    simp [descRange, mem_descRange n r]
    omega

theorem head?_take_pos (cs : List Char) (n : Nat) (h : 0 < n) :
    (cs.take n).head? = cs.head? := by
  cases cs <;> cases n <;> simp_all

theorem lt_length_of_getElem?_some {l : List Char} {n : Nat} {a : Char}
    (h : l[n]? = some a) : n < l.length := by
  by_contra hc
  rw [List.getElem?_eq_none (by omega)] at h
  cases h

/-! ## Soundness and completeness of the email matcher -/

theorem tldTry_sound (ts : List Char) (t : Nat) (h : tldTry ts = some t) :
    2 ≤ t ∧ t ≤ runLen isTldChar ts ∧ bnd ts[t - 1]? ts[t]? = true := by
  obtain ⟨x, hx, hfx⟩ := firstSome_eq_some _ _ _ h
  rw [mem_descRange] at hx
  split at hfx
  · rename_i hcond
    obtain rfl : x = t := by injection hfx
    rw [Bool.and_eq_true, decide_eq_true_eq] at hcond
    exact ⟨hcond.1, hx.2, hcond.2⟩
  · cases hfx

theorem tldTry_complete (tp rest : List Char) (h1 : tp.all isTldChar)
    (h2 : 2 ≤ tp.length) (h3 : bnd tp.getLast? rest.head? = true) :
    (tldTry (tp ++ rest)).isSome := by
  apply firstSome_isSome _ _ tp.length
  · rw [mem_descRange]
    refine ⟨by omega, ?_⟩
    rw [runLen_append_all isTldChar tp rest h1]
    omega
  · have e1 : (tp ++ rest)[tp.length - 1]? = tp.getLast? := by
      rw [List.getElem?_append_left (by omega), List.getLast?_eq_getElem?]
    have e2 : (tp ++ rest)[tp.length]? = rest.head? := by
      rw [List.getElem?_append_right (Nat.le_refl _), Nat.sub_self,
        List.head?_eq_getElem?]
    rw [e1, e2, h3]
    simp [h2]

theorem domTry_sound (ds : List Char) (r t : Nat) (h : domTry ds = some (r, t)) :
    1 ≤ r ∧ (ds.take r).all isDomainChar ∧ ds[r]? = some '.' ∧
      tldTry (ds.drop (r + 1)) = some t := by
  obtain ⟨x, hx, hfx⟩ := firstSome_eq_some _ _ _ h
  rw [mem_descRange] at hx
  split at hfx
  · rename_i hdot
    rw [Option.map_eq_some'] at hfx
    obtain ⟨t', ht', hpair⟩ := hfx
    have hxr : x = r := congrArg Prod.fst hpair
    have htt' : t' = t := congrArg Prod.snd hpair
    subst hxr
    subst htt'
    refine ⟨hx.1, all_take_of_le_runLen _ _ _ hx.2, ?_, ht'⟩
    exact beq_iff_eq.mp hdot
  · cases hfx

theorem domTry_complete (dp tp rest : List Char) (h1 : dp ≠ [])
    (h2 : dp.all isDomainChar) (h3 : tp.all isTldChar) (h4 : 2 ≤ tp.length)
    (h5 : bnd tp.getLast? rest.head? = true) :
    (domTry (dp ++ '.' :: (tp ++ rest))).isSome := by
  have hdplen : 0 < dp.length := List.length_pos.mpr h1
  apply firstSome_isSome _ _ dp.length
  · rw [mem_descRange]
    refine ⟨by omega, ?_⟩
    rw [runLen_append_all isDomainChar dp _ h2]
    omega
  · have edot : (dp ++ '.' :: (tp ++ rest))[dp.length]? = some '.' := by
      rw [List.getElem?_append_right (Nat.le_refl _), Nat.sub_self]
      simp
    have edrop : (dp ++ '.' :: (tp ++ rest)).drop (dp.length + 1) = tp ++ rest := by
      have : dp ++ '.' :: (tp ++ rest) = (dp ++ ['.']) ++ (tp ++ rest) := by simp
      rw [this]
      have hlen : dp.length + 1 = (dp ++ ['.']).length := by simp
      rw [hlen, List.drop_left]
    rw [edot, edrop]
    simp only [beq_self_eq_true, if_true]
    simpa using tldTry_complete tp rest h3 h4 h5

theorem matchEmailAt_sound (prev : Option Char) (cs : List Char) (len : Nat)
    (h : matchEmailAt prev cs = some len) :
    len ≤ cs.length ∧ EmailShape (cs.take len) ∧
    bnd prev (cs.take len).head? = true ∧
    bnd (cs.take len).getLast? (cs.drop len).head? = true := by
  unfold matchEmailAt at h
  set l := runLen isLocalChar cs with hldef
  split at h
  case isFalse => cases h
  case isTrue hbnd =>
  split at h
  case isFalse => cases h
  case isTrue hcond =>
  rw [Bool.and_eq_true, decide_eq_true_eq, beq_iff_eq] at hcond
  obtain ⟨hl1, hl2⟩ := hcond
  rw [Option.map_eq_some'] at h
  obtain ⟨⟨r, t⟩, hdom, hlen⟩ := h
  obtain ⟨hr1, hrall, hrdot, htld⟩ := domTry_sound _ _ _ hdom
  obtain ⟨ht2, htle, htb⟩ := tldTry_sound _ _ htld
  set ds := cs.drop (l + 1) with hdsdef
  set ts := ds.drop (r + 1) with htsdef
  have hlcs : l < cs.length := lt_length_of_getElem?_some hl2
  have hrds : r < ds.length := lt_length_of_getElem?_some hrdot
  have htts : t ≤ ts.length := le_trans htle (runLen_le_length _ _)
  -- cs = lp ++ '@' :: ds
  have hcs1 : cs = cs.take l ++ '@' :: ds := by
    conv_lhs => rw [← List.take_append_drop l cs]
    rw [List.drop_eq_getElem_cons hlcs]
    have : cs[l] = '@' := by
      have := List.getElem?_eq_getElem hlcs
      rw [hl2] at this
      injection this with h'
      exact h'.symm
    rw [this]
  -- ds = dp ++ '.' :: ts
  have hds1 : ds = ds.take r ++ '.' :: ts := by
    conv_lhs => rw [← List.take_append_drop r ds]
    rw [List.drop_eq_getElem_cons hrds]
    have : ds[r] = '.' := by
      have := List.getElem?_eq_getElem hrds
      rw [hrdot] at this
      injection this with h'
      exact h'.symm
    rw [this]
  -- ts = tp ++ ts.drop t
  have hts1 : ts = ts.take t ++ ts.drop t := (List.take_append_drop t ts).symm
  have hlplen : (cs.take l).length = l := by simp; omega
  have hdplen : (ds.take r).length = r := by simp; omega
  have htplen : (ts.take t).length = t := by simp; omega
  -- the match and the remainder
  set M := cs.take l ++ '@' :: (ds.take r ++ '.' :: ts.take t) with hMdef
  have hMlen : M.length = len := by
    rw [hMdef]
    simp [hlplen, hdplen, htplen]
    omega
  have hcsM : cs = M ++ ts.drop t := by
    rw [hMdef]
    conv_lhs => rw [hcs1]
    conv_lhs => rw [hds1]
    conv_lhs => rw [hts1]
    simp
  have htake : cs.take len = M := by
    conv_lhs => rw [hcsM, ← hMlen]
    exact List.take_left M _
  have hdrop : cs.drop len = ts.drop t := by
    conv_lhs => rw [hcsM, ← hMlen]
    exact List.drop_left M _
  have hlp_ne : cs.take l ≠ [] := by
    intro hc
    have := congrArg List.length hc
    rw [hlplen] at this
    simp at this
    omega
  have htp_ne : ts.take t ≠ [] := by
    intro hc
    have := congrArg List.length hc
    rw [htplen] at this
    simp at this
    omega
  refine ⟨?_, ?_, ?_, ?_⟩
  · have := congrArg List.length hcsM
    simp [hMlen] at this
    omega
  · rw [htake]
    exact ⟨cs.take l, ds.take r, ts.take t, rfl, hlp_ne,
      all_take_of_le_runLen _ _ _ (le_of_eq hldef), by
        intro hc
        have := congrArg List.length hc
        rw [hdplen] at this
        simp at this
        omega,
      hrall, by rw [htplen]; exact ht2, all_take_of_le_runLen _ _ _ htle⟩
  · rw [htake, hMdef, List.head?_append_of_ne_nil _ hlp_ne]
    rw [head?_take_pos cs l (by omega)] at *
    exact hbnd
  · rw [htake, hdrop]
    have hMlast : M.getLast? = (ts.take t).getLast? := by
      rw [hMdef, List.getLast?_append_of_ne_nil _ (by simp)]
      have : ('@' : Char) :: (ds.take r ++ '.' :: ts.take t) =
          ('@' :: (ds.take r ++ ['.'])) ++ ts.take t := by simp
      rw [this, List.getLast?_append_of_ne_nil _ htp_ne]
    rw [hMlast]
    have e1 : (ts.take t).getLast? = ts[t - 1]? := by
      rw [List.getLast?_eq_getElem?, htplen, List.getElem?_take_of_lt (by omega)]
    have e2 : (ts.drop t).head? = ts[t]? := List.head?_drop ts t
    rw [e1, e2]
    exact htb

theorem matchEmailAt_complete (prev : Option Char) (cs : List Char)
    (h : EmailDecomp prev cs) : (matchEmailAt prev cs).isSome := by
  obtain ⟨m, rest, hcs, ⟨lp, dp, tp, hm, hlp, hlpall, hdp, hdpall, htp, htpall⟩,
    hb1, hb2⟩ := h
  subst hm
  subst hcs
  have htpne : tp ≠ [] := by
    intro hc
    rw [hc] at htp
    simp at htp
  have hassoc : (lp ++ '@' :: (dp ++ '.' :: tp)) ++ rest
      = lp ++ '@' :: (dp ++ '.' :: (tp ++ rest)) := by simp
  rw [hassoc]
  set Z := dp ++ '.' :: (tp ++ rest) with hZ
  have hrun : runLen isLocalChar (lp ++ '@' :: Z) = lp.length := by
    rw [runLen_append_all _ _ _ hlpall, runLen_cons_false _ _ _ (by decide)]
    omega
  have hat : (lp ++ '@' :: Z)[lp.length]? = some '@' := by
    rw [List.getElem?_append_right (Nat.le_refl _), Nat.sub_self]
    simp
  have hdropZ : (lp ++ '@' :: Z).drop (lp.length + 1) = Z := by
    have h1 : lp ++ '@' :: Z = (lp ++ ['@']) ++ Z := by simp
    rw [h1]
    have h2 : lp.length + 1 = (lp ++ ['@']).length := by simp
    rw [h2, List.drop_left]
  have hc1 : bnd prev (lp ++ '@' :: Z).head? = true := by
    rw [List.head?_append_of_ne_nil lp hlp]
    rw [List.head?_append_of_ne_nil lp hlp] at hb1
    exact hb1
  have hb2' : bnd tp.getLast? rest.head? = true := by
    have hlast : (lp ++ '@' :: (dp ++ '.' :: tp)).getLast? = tp.getLast? := by
      rw [List.getLast?_append_of_ne_nil _ (by simp)]
      have he : ('@' : Char) :: (dp ++ '.' :: tp) = ('@' :: dp ++ ['.']) ++ tp := by
        simp
      rw [he, List.getLast?_append_of_ne_nil _ htpne]
    rw [hlast] at hb2
    exact hb2
  unfold matchEmailAt
  rw [hrun, if_pos hc1, hat]
  have hcond : (decide (1 ≤ lp.length) && (some '@' == some '@')) = true := by
    simp [Nat.one_le_iff_ne_zero, List.length_eq_zero, hlp]
  rw [hcond, if_pos rfl]
  simpa using domTry_complete dp tp rest hdp hdpall htpall htp hb2'

theorem matchEmailAt_nil (prev : Option Char) : matchEmailAt prev [] = none := by
  unfold matchEmailAt
  split <;> simp [runLen]

theorem searchFrom_sound :
    ∀ (rest pre : List Char) (i len : Nat),
      searchFrom pre.getLast? rest pre.length = some (i, len) →
      pre.length ≤ i ∧
      matchEmailAt ((pre ++ rest).take i).getLast? ((pre ++ rest).drop i) = some len ∧
      ∀ j, pre.length ≤ j → j < i →
        matchEmailAt ((pre ++ rest).take j).getLast? ((pre ++ rest).drop j) = none
  | [], pre, i, len, h => by
    simp [searchFrom] at h
  | c :: rest', pre, i, len, h => by
    unfold searchFrom at h
    cases hm : matchEmailAt pre.getLast? (c :: rest') with
    | some len' =>
      rw [hm] at h
      injection h with hpair
      have hi : pre.length = i := congrArg Prod.fst hpair
      have hl : len' = len := congrArg Prod.snd hpair
      subst hi
      subst hl
      refine ⟨Nat.le_refl _, ?_, ?_⟩
      · rw [List.take_left, List.drop_left]
        exact hm
      · intro j h1 h2
        omega
    | none =>
      rw [hm] at h
      have h' : searchFrom (pre ++ [c]).getLast? rest' (pre ++ [c]).length
          = some (i, len) := by
        simpa using h
      obtain ⟨h1, h2, h3⟩ := searchFrom_sound rest' (pre ++ [c]) i len h'
      have heq : (pre ++ [c]) ++ rest' = pre ++ c :: rest' := by simp
      rw [heq] at h2 h3
      simp only [List.length_append, List.length_cons, List.length_nil] at h1
      refine ⟨by omega, h2, ?_⟩
      intro j hj1 hj2
      by_cases hje : j = pre.length
      · subst hje
        rw [List.take_left, List.drop_left]
        exact hm
      · exact h3 j (by simp; omega) hj2

theorem searchFrom_none :
    ∀ (rest pre : List Char),
      searchFrom pre.getLast? rest pre.length = none →
      ∀ j, pre.length ≤ j →
        matchEmailAt ((pre ++ rest).take j).getLast? ((pre ++ rest).drop j) = none
  | [], pre, _, j, hj => by
    have hd : (pre ++ ([] : List Char)).drop j = [] :=
      List.drop_eq_nil_of_le (by simpa using hj)
    rw [hd, matchEmailAt_nil]
  | c :: rest', pre, h, j, hj => by
    unfold searchFrom at h
    cases hm : matchEmailAt pre.getLast? (c :: rest') with
    | some len' =>
      rw [hm] at h
      cases h
    | none =>
      rw [hm] at h
      by_cases hje : j = pre.length
      · subst hje
        rw [List.take_left, List.drop_left]
        exact hm
      · have h' : searchFrom (pre ++ [c]).getLast? rest' (pre ++ [c]).length = none := by
          simpa using h
        have := searchFrom_none rest' (pre ++ [c]) h' j (by simp; omega)
        simpa using this

theorem matchesAt_iff (cs : List Char) (i : Nat) :
    MatchesAt cs i ↔ i ≤ cs.length ∧ EmailDecomp (cs.take i).getLast? (cs.drop i) := by
  constructor
  · rintro ⟨pre, rest, rfl, rfl, hd⟩
    refine ⟨by simp, ?_⟩
    rw [List.take_left, List.drop_left]
    exact hd
  · rintro ⟨hle, hd⟩
    refine ⟨cs.take i, cs.drop i, (List.take_append_drop i cs).symm, ?_, hd⟩
    simp [List.length_take, Nat.min_eq_left hle]

theorem emailFindFirst_spec (cs : List Char) (h : ∃ i, MatchesAt cs i) :
    ∃ i len, searchFrom none cs 0 = some (i, len) ∧
      emailFindFirst cs = some ((cs.drop i).take len) ∧
      EmailShape ((cs.drop i).take len) ∧
      MatchesAt cs i ∧
      ∀ j, j < i → ¬ MatchesAt cs j := by
  obtain ⟨i0, hm0⟩ := h
  cases hs : searchFrom none cs 0 with
  | none =>
    exfalso
    have hs' : searchFrom (([] : List Char)).getLast? cs ([] : List Char).length = none := by
      simpa using hs
    have hnone := searchFrom_none cs [] hs' i0 (by simp)
    simp only [List.nil_append] at hnone
    rw [matchesAt_iff] at hm0
    have hsome := matchEmailAt_complete _ _ hm0.2
    rw [hnone] at hsome
    simp at hsome
  | some il =>
    obtain ⟨i, len⟩ := il
    have hs' : searchFrom (([] : List Char)).getLast? cs ([] : List Char).length
        = some (i, len) := by simpa using hs
    obtain ⟨_, hmatch, hmin⟩ := searchFrom_sound cs [] i len hs'
    simp only [List.nil_append] at hmatch hmin
    obtain ⟨hlen, hshape, hb1, hb2⟩ := matchEmailAt_sound _ _ _ hmatch
    refine ⟨i, len, rfl, ?_, hshape, ?_, ?_⟩
    · unfold emailFindFirst
      rw [hs]
      rfl
    · rw [matchesAt_iff]
      have hi : i ≤ cs.length := by
        by_contra hc
        rw [List.drop_eq_nil_of_le (by omega), matchEmailAt_nil] at hmatch
        cases hmatch
      exact ⟨hi, (cs.drop i).take len, (cs.drop i).drop len,
        (List.take_append_drop len _).symm, hshape, hb1, hb2⟩
    · intro j hj hmj
      rw [matchesAt_iff] at hmj
      have hsome := matchEmailAt_complete _ _ hmj.2
      rw [hmin j (by simp) hj] at hsome
      simp at hsome

theorem containsSub_singleton (a : Char) :
    ∀ hay : List Char, containsSub [a] hay = true ↔ a ∈ hay
  | [] => by simp [containsSub, findSubIdx, isPrefixL]
  | c :: cs => by
    by_cases h : a = c
    · subst h
      simp [containsSub, findSubIdx, isPrefixL]
    · have ih := containsSub_singleton a cs
      simp only [containsSub, findSubIdx, isPrefixL, Bool.and_true,
        beq_iff_eq, h, if_false] at ih ⊢
      rw [List.mem_cons]
      cases hf : findSubIdx [a] cs <;> rw [hf] at ih <;> simp [hf] at ih ⊢ <;> tauto

/-- An input containing an email-pattern match contains both `@` and `.`
(hence the source's cheap pre-filter never hides a match). -/
theorem matchesAt_contains (cs : List Char) (i : Nat) (h : MatchesAt cs i) :
    '@' ∈ cs ∧ '.' ∈ cs := by
  obtain ⟨pre, rest, rfl, -, m, rest2, rfl, ⟨lp, dp, tp, rfl, -⟩, -, -⟩ := h
  constructor <;> simp

/-! ## Frame lemmas for the extraction blocks -/

theorem name_step_email (st : String) (cs : List Char) (i : CandidateInfo) :
    (name_step st cs i).email = i.email := by
  simp only [name_step]
  split <;> try rfl
  split <;> try rfl
  split <;> rfl

theorem phone_step_email (cs : List Char) (i : CandidateInfo) :
    (phone_step cs i).email = i.email := by
  simp only [phone_step]
  split <;> try rfl
  split <;> rfl

theorem experience_step_email (cs : List Char) (i : CandidateInfo) :
    (experience_step cs i).email = i.email := by
  simp only [experience_step]
  split <;> try rfl
  split <;> rfl

theorem position_step_email (cs : List Char) (i : CandidateInfo) :
    (position_step cs i).email = i.email := by
  simp only [position_step]
  split <;> try rfl
  split <;> rfl

theorem tech_stack_step_email (st : String) (cs : List Char) (i : CandidateInfo) :
    (tech_stack_step st cs i).email = i.email := by
  simp only [tech_stack_step]
  split <;> try rfl
  split <;> rfl

theorem name_step_tech (st : String) (cs : List Char) (i : CandidateInfo) :
    (name_step st cs i).tech_stack = i.tech_stack := by
  simp only [name_step]
  split <;> try rfl
  split <;> try rfl
  split <;> rfl

theorem email_step_tech (cs : List Char) (i : CandidateInfo) :
    (email_step cs i).tech_stack = i.tech_stack := by
  simp only [email_step]
  split <;> try rfl
  split <;> rfl

theorem phone_step_tech (cs : List Char) (i : CandidateInfo) :
    (phone_step cs i).tech_stack = i.tech_stack := by
  simp only [phone_step]
  split <;> try rfl
  split <;> rfl

theorem experience_step_tech (cs : List Char) (i : CandidateInfo) :
    (experience_step cs i).tech_stack = i.tech_stack := by
  simp only [experience_step]
  split <;> try rfl
  split <;> rfl

theorem position_step_tech (cs : List Char) (i : CandidateInfo) :
    (position_step cs i).tech_stack = i.tech_stack := by
  simp only [position_step]
  split <;> try rfl
  split <;> rfl

theorem tech_stack_step_of_stage (st : String) (cs : List Char) (i : CandidateInfo)
    (h : st ≠ "collecting_info") : tech_stack_step st cs i = i := by
  unfold tech_stack_step
  rw [if_neg]
  intro hc
  exact h hc.2.1

/-- Outside `"collecting_info"` extraction leaves the tech-stack field as it
was. -/
theorem extract_tech_stack (input : String) (ci : CandidateInfo) (st : String)
    (h : st ≠ "collecting_info") :
    (extract_candidate_info input ci st).tech_stack = ci.tech_stack := by
  unfold extract_candidate_info
  split
  · rfl
  · rw [tech_stack_step_of_stage _ _ _ h, position_step_tech, experience_step_tech,
      phone_step_tech, email_step_tech, name_step_tech]

/-- Extraction at a stage outside the gate returns the field set unchanged. -/
theorem extract_gate (input : String) (ci : CandidateInfo) (st : String)
    (h1 : st ≠ "greeting") (h2 : st ≠ "collecting_info")
    (h3 : st ≠ "tech_stack_confirmation") :
    extract_candidate_info input ci st = ci := by
  unfold extract_candidate_info
  rw [if_pos ⟨h1, h2, h3⟩]

/-- When extraction runs with the email field unset and the input contains an
email-pattern match, the email field is set to the text of the leftmost
match. -/
theorem extract_email_finds (input : String) (info : CandidateInfo) (stage : String)
    (hstage : stage = "greeting" ∨ stage = "collecting_info" ∨
      stage = "tech_stack_confirmation")
    (hemail : info.email = none)
    (hmatch : ∃ i, MatchesAt input.toList i) :
    ∃ i len, MatchesAt input.toList i ∧ (∀ j, j < i → ¬ MatchesAt input.toList j) ∧
      EmailShape ((input.toList.drop i).take len) ∧
      (extract_candidate_info input info stage).email
        = some (String.mk ((input.toList.drop i).take len)) := by
  obtain ⟨i, len, hsearch, hfind, hshape, hmat, hmin⟩ :=
    emailFindFirst_spec input.toList hmatch
  refine ⟨i, len, hmat, hmin, hshape, ?_⟩
  have hgate : ¬(stage ≠ "greeting" ∧ stage ≠ "collecting_info" ∧
      stage ≠ "tech_stack_confirmation") := by
    rcases hstage with h | h | h <;> simp [h]
  have hcontains := matchesAt_contains _ _ hmat
  unfold extract_candidate_info
  rw [if_neg hgate, tech_stack_step_email, position_step_email,
    experience_step_email, phone_step_email]
  simp only [email_step, name_step_email, hemail]
  rw [if_pos ⟨by simp [truthy], (containsSub_singleton _ _).mpr hcontains.1,
    (containsSub_singleton _ _).mpr hcontains.2⟩, hfind]

/-- Extraction never changes an email field that already holds a non-empty
string. -/
theorem extract_email_preserved (input : String) (info : CandidateInfo)
    (stage : String) (e : String) (he : info.email = some e) (hne : e ≠ "") :
    (extract_candidate_info input info stage).email = some e := by
  by_cases hgate : stage ≠ "greeting" ∧ stage ≠ "collecting_info" ∧
      stage ≠ "tech_stack_confirmation"
  · rw [extract_gate _ _ _ hgate.1 hgate.2.1 hgate.2.2, he]
  · unfold extract_candidate_info
    rw [if_neg hgate, tech_stack_step_email, position_step_email,
      experience_step_email, phone_step_email]
    simp only [email_step, name_step_email, he]
    rw [if_neg]
    · rw [name_step_email, he]
    · intro hc
      exact hc.1 (by simp [truthy, hne])

/-! ## State-machine lemmas -/

theorem stageIdx_le_nine (st : String) : stageIdx st ≤ 9 := by
  unfold stageIdx
  split_ifs <;> omega

theorem canonical_ne_collecting_info (st : String) (h : st ∈ canonical_stages) :
    st ≠ "collecting_info" := by
  simp [canonical_stages] at h
  rcases h with rfl | rfl | rfl | rfl | rfl | rfl | rfl | rfl | rfl | rfl <;> decide

theorem stageIdx_reduce :
    stageIdx "greeting" = 0 ∧ stageIdx "collecting_name" = 1 ∧
    stageIdx "collecting_email" = 2 ∧ stageIdx "collecting_phone" = 3 ∧
    stageIdx "collecting_position" = 4 ∧ stageIdx "collecting_experience" = 5 ∧
    stageIdx "collecting_tech_stack" = 6 ∧ stageIdx "tech_stack_confirmation" = 7 ∧
    stageIdx "technical_questions" = 8 ∧ stageIdx "farewell" = 9 :=
  ⟨rfl, rfl, rfl, rfl, rfl, rfl, rfl, rfl, rfl, rfl⟩

theorem handle_stage_mono (o : Oracle) (a u : String) (s : SessionState)
    (hmem : s.current_stage ∈ canonical_stages) :
    stageIdx s.current_stage
      ≤ stageIdx (handle_stage_transitions o a u s).1.current_stage := by
  simp only [canonical_stages, List.mem_cons, List.not_mem_nil, or_false] at hmem
  rcases hmem with hst | hst | hst | hst | hst | hst | hst | hst | hst | hst <;>
    simp only [handle_stage_transitions, end_conversation, hst, String.reduceEq,
      reduceIte, false_and, true_and] <;>
    first
    | (split_ifs <;> simp [stageIdx, hst])
    | simp [stageIdx, hst]

/-- One call of `handle_stage_transitions` from a live, canonical,
tech-stack-free state yields a state satisfying the session invariant. -/
theorem handle_inv (o : Oracle) (a u : String) (s : SessionState)
    (hmem : s.current_stage ∈ canonical_stages)
    (hts : s.candidate_info.tech_stack = none)
    (hntsc : s.current_stage ≠ "tech_stack_confirmation")
    (hend : s.conversation_ended = false)
    (hnfar : s.current_stage ≠ "farewell") :
    SessionInv (handle_stage_transitions o a u s).1 := by
  simp only [canonical_stages, List.mem_cons, List.not_mem_nil, or_false] at hmem
  rcases hmem with hst | hst | hst | hst | hst | hst | hst | hst | hst | hst <;>
    first
    | exact absurd hst hntsc
    | exact absurd hst hnfar
    | (simp only [handle_stage_transitions, end_conversation, hst, String.reduceEq,
        reduceIte, false_and, true_and]
       first
       | (split_ifs <;> refine ⟨?_, ?_, ?_, ?_⟩ <;> simp_all [canonical_stages, truthy, hst])
       | (refine ⟨?_, ?_, ?_, ?_⟩ <;> simp_all [canonical_stages, truthy, hst]))

/-- One call of `process_user_input` preserves the session invariant. -/
theorem sessionInv_step (o : Oracle) (u : String) (s : SessionState)
    (h : SessionInv s) : SessionInv (process_user_input o u s).1 := by
  obtain ⟨hmem, hfar, hts, hntsc⟩ := h
  unfold process_user_input
  split_ifs with he hx
  · exact ⟨hmem, hfar, hts, hntsc⟩
  · refine ⟨?_, ?_, ?_, ?_⟩ <;>
      simp [end_conversation, canonical_stages, hts]
  · have hend : s.conversation_ended = false := by simpa using he
    have hnfar : s.current_stage ≠ "farewell" := by
      intro hc
      rw [hfar.mp hc] at hend
      cases hend
    have hne : s.current_stage ≠ "collecting_info" :=
      canonical_ne_collecting_info _ hmem
    apply handle_inv
    · simpa using hmem
    · show (extract_candidate_info u s.candidate_info s.current_stage).tech_stack = none
      rw [extract_tech_stack u s.candidate_info s.current_stage hne]
      exact hts
    · simpa using hntsc
    · simpa using hend
    · simpa using hnfar

/-- Every reachable session state satisfies the invariant. -/
theorem reachable_inv (s : SessionState) (h : Reachable s) : SessionInv s := by
  induction h with
  | init =>
    exact ⟨by decide, by simp [initialState], rfl, by decide⟩
  | step o input h ih => exact sessionInv_step o input _ ih
  | ui msgs h ih =>
    obtain ⟨a, b, c, d⟩ := ih
    exact ⟨a, b, c, d⟩

/-- `handle_stage_transitions` never assigns the stage value
`"collecting_info"`: if the stage was not `"collecting_info"` before the
call, it is not afterwards either. -/
theorem handle_ne_collecting_info (o : Oracle) (a u : String) (s : SessionState)
    (h : s.current_stage ≠ "collecting_info") :
    (handle_stage_transitions o a u s).1.current_stage ≠ "collecting_info" := by
  by_cases hmem : s.current_stage ∈ canonical_stages
  · simp only [canonical_stages, List.mem_cons, List.not_mem_nil, or_false] at hmem
    rcases hmem with hst | hst | hst | hst | hst | hst | hst | hst | hst | hst <;>
      simp only [handle_stage_transitions, end_conversation, hst, String.reduceEq,
        reduceIte, false_and, true_and] <;>
      first
      | (split_ifs <;> simp [hst])
      | simp [hst]
  · have h1 : s.current_stage ≠ "greeting" :=
      fun hc => hmem (by simp [canonical_stages, hc])
    have h3 : s.current_stage ≠ "collecting_email" :=
      fun hc => hmem (by simp [canonical_stages, hc])
    have h4 : s.current_stage ≠ "collecting_phone" :=
      fun hc => hmem (by simp [canonical_stages, hc])
    have h5 : s.current_stage ≠ "collecting_position" :=
      fun hc => hmem (by simp [canonical_stages, hc])
    have h6 : s.current_stage ≠ "collecting_experience" :=
      fun hc => hmem (by simp [canonical_stages, hc])
    have h7 : s.current_stage ≠ "collecting_tech_stack" :=
      fun hc => hmem (by simp [canonical_stages, hc])
    have h8 : s.current_stage ≠ "tech_stack_confirmation" :=
      fun hc => hmem (by simp [canonical_stages, hc])
    have h9 : s.current_stage ≠ "technical_questions" :=
      fun hc => hmem (by simp [canonical_stages, hc])
    simp only [handle_stage_transitions, end_conversation, h1, h3, h4, h5, h6, h7,
      h8, h9, false_and, if_false]
    exact h

/-- A successful scan yields a position at which the email pattern matches. -/
theorem exists_matchesAt_of_search (cs : List Char) (i len : Nat)
    (h : searchFrom none cs 0 = some (i, len)) : ∃ j, MatchesAt cs j := by
  have hs' : searchFrom (([] : List Char)).getLast? cs ([] : List Char).length
      = some (i, len) := by simpa using h
  obtain ⟨-, hmatch, -⟩ := searchFrom_sound cs [] i len hs'
  simp only [List.nil_append] at hmatch
  obtain ⟨hlen, hshape, hb1, hb2⟩ := matchEmailAt_sound _ _ _ hmatch
  refine ⟨i, ?_⟩
  rw [matchesAt_iff]
  have hi : i ≤ cs.length := by
    by_contra hc
    rw [List.drop_eq_nil_of_le (by omega), matchEmailAt_nil] at hmatch
    cases hmatch
  exact ⟨hi, (cs.drop i).take len, (cs.drop i).drop len,
    (List.take_append_drop len _).symm, hshape, hb1, hb2⟩

theorem take_five_python (Z : List String) :
    (python_questions ++ Z).take 5 = python_questions := by
  have h5 : python_questions.length = 5 := rfl
  rw [← h5, List.take_left]

/-- On the mock path, a tech stack mentioning Python yields a question list
beginning with the five canned Python questions, cut to five. -/
theorem get_mock_starts_python (tsl : String)
    (hp : containsSub "python".toList (pyLower tsl.toList) = true) :
    ∃ Z, get_mock_technical_questions tsl = (python_questions ++ Z).take 5 := by
  unfold get_mock_technical_questions
  dsimp only
  rw [show mock_tech_table = ("python", python_questions) :: mock_tech_table.tail from rfl,
    List.filter_cons]
  dsimp only
  rw [if_pos hp, if_neg (by simp [python_questions])]
  exact ⟨_, rfl⟩

/-! ## Claim theorems -/

/-- C1: for any call of `process_user_input` from a reachable state, the
stage index in the canonical ordering never decreases; and once the stage is
`"farewell"`, the call leaves the state unchanged and returns the fixed
session-ended notice — the farewell stage is absorbing. -/
theorem C1_stage_monotone_farewell_absorbing (o : Oracle) (input : String)
    (s : SessionState) (h : Reachable s) :
    stageIdx s.current_stage
      ≤ stageIdx (process_user_input o input s).1.current_stage ∧
    (s.current_stage = "farewell" →
      process_user_input o input s = (s, session_ended_notice)) := by
  obtain ⟨hmem, hfar, hts, hntsc⟩ := reachable_inv s h
  constructor
  · unfold process_user_input
    split_ifs with he hx
    · exact le_rfl
    · exact stageIdx_le_nine s.current_stage
    · have h1 := handle_stage_mono o o.llmResponse input
        { s with candidate_info :=
            extract_candidate_info input s.candidate_info s.current_stage }
        (by simpa using hmem)
      simpa using h1
  · intro hfw
    unfold process_user_input
    rw [if_pos (hfar.mp hfw)]

/-- Witness for C1 at the initial state. -/
theorem C1_witness :
    stageIdx initialState.current_stage
      ≤ stageIdx (process_user_input exOracle "hello there" initialState).1.current_stage ∧
    (initialState.current_stage = "farewell" →
      process_user_input exOracle "hello there" initialState
        = (initialState, session_ended_notice)) :=
  C1_stage_monotone_farewell_absorbing exOracle "hello there" initialState Reachable.init

/-- C2: tech-stack extraction changes the tech-stack field only in stage
`"collecting_info"`; `handle_stage_transitions` never assigns that stage
value; consequently every reachable state still has `tech_stack = none`, and
no call from a reachable state ever enters `"tech_stack_confirmation"` — the
`collecting_tech_stack → tech_stack_confirmation` transition never fires. -/
theorem C2_dead_tech_stack_branch :
    (∀ (input : String) (ci : CandidateInfo) (stage : String),
      stage ≠ "collecting_info" →
      (extract_candidate_info input ci stage).tech_stack = ci.tech_stack) ∧
    (∀ (o : Oracle) (a u : String) (s : SessionState),
      s.current_stage ≠ "collecting_info" →
      (handle_stage_transitions o a u s).1.current_stage ≠ "collecting_info") ∧
    (∀ s : SessionState, Reachable s → s.candidate_info.tech_stack = none) ∧
    (∀ (o : Oracle) (input : String) (s : SessionState), Reachable s →
      (process_user_input o input s).1.current_stage ≠ "tech_stack_confirmation") := by
  refine ⟨extract_tech_stack, handle_ne_collecting_info, ?_, ?_⟩
  · intro s h
    exact (reachable_inv s h).2.2.1
  · intro o input s h
    exact (sessionInv_step o input s (reachable_inv s h)).2.2.2

/-- Witness for C2 at concrete inputs. -/
theorem C2_witness :
    (extract_candidate_info "I use python and django daily" initialCandidateInfo
        "greeting").tech_stack = initialCandidateInfo.tech_stack ∧
    (handle_stage_transitions exOracle "ok" "hello" initialState).1.current_stage
      ≠ "collecting_info" ∧
    initialState.candidate_info.tech_stack = none ∧
    (process_user_input exOracle "hello" initialState).1.current_stage
      ≠ "tech_stack_confirmation" :=
  ⟨C2_dead_tech_stack_branch.1 _ _ _ (by decide),
   C2_dead_tech_stack_branch.2.1 _ _ _ _ (by decide),
   C2_dead_tech_stack_branch.2.2.1 _ Reachable.init,
   C2_dead_tech_stack_branch.2.2.2 _ _ _ Reachable.init⟩

/-- C4: an input containing an exit keyword, submitted from a reachable
non-farewell state, moves the stage to `"farewell"` in that single call; the
result is independent of the model oracle and of field extraction (the
returned state carries the unmodified field set), and the one
`save_conversation` call of `end_conversation` is counted. -/
theorem C4_exit_keyword_short_circuit (o : Oracle) (input : String)
    (s : SessionState) (hr : Reachable s) (hkw : containsExit input = true)
    (hst : s.current_stage ≠ "farewell") :
    process_user_input o input s =
      ({ s with
          current_stage := "farewell"
          conversation_ended := true
          saveCalls := s.saveCalls + 1 }, closing_message s.candidate_info) := by
  obtain ⟨hmem, hfar, hts, hntsc⟩ := reachable_inv s hr
  have hend : s.conversation_ended = false := by
    cases hv : s.conversation_ended
    · rfl
    · exact absurd (hfar.mpr hv) hst
  unfold process_user_input
  rw [if_neg (by simp [hend]), if_pos ⟨hkw, hst⟩]
  rfl

/-- Witness for C4 with the keyword `goodbye` at the initial state. -/
theorem C4_witness :
    process_user_input exOracle "ok goodbye then" initialState =
      ({ initialState with
          current_stage := "farewell"
          conversation_ended := true
          saveCalls := initialState.saveCalls + 1 },
        closing_message initialState.candidate_info) :=
  C4_exit_keyword_short_circuit exOracle "ok goodbye then" initialState
    Reachable.init (by decide) (by decide)

/-- C3 counterexample: in the claimed scenario (stage
`collecting_experience`, position `"Backend Developer"`, experience unset,
input `"I have 4 years of experience"`) the call does **not** set
`experience = "4 years"`, does **not** advance to `collecting_tech_stack`,
and does not emit the back-end example prompt: extraction is gated to the
stages greeting/collecting_info/tech_stack_confirmation and never runs at
`collecting_experience`. -/
theorem C3_counterexample :
    ¬ ((process_user_input exOracle "I have 4 years of experience"
          c3_state).1.candidate_info.experience = some "4 years" ∧
       (process_user_input exOracle "I have 4 years of experience"
          c3_state).1.current_stage = "collecting_tech_stack" ∧
       pyContains "Node.js, Python, Java, PHP, Ruby, databases"
          (process_user_input exOracle "I have 4 years of experience"
            c3_state).2 = true) := by
  intro h
  have he : (process_user_input exOracle "I have 4 years of experience"
      c3_state).1.current_stage = "collecting_experience" := by decide
  rw [he] at h
  exact absurd h.2.1 (by decide)

/-- C3 amended: with the stage `collecting_experience`, position
`"Backend Developer"` and experience unset, one call of
`process_user_input` on `"I have 4 years of experience"` leaves the whole
state unchanged (in particular `experience` stays unset and the stage stays
`collecting_experience`) and passes the model reply through unchanged,
because `extract_candidate_info` runs only in the stages greeting,
collecting_info and tech_stack_confirmation. -/
theorem C3_amended_extraction_gated (o : Oracle) (s : SessionState)
    (h1 : s.current_stage = "collecting_experience")
    (h2 : s.conversation_ended = false)
    (h3 : s.candidate_info.position = some "Backend Developer")
    (h4 : s.candidate_info.experience = none) :
    process_user_input o "I have 4 years of experience" s = (s, o.llmResponse) := by
  unfold process_user_input
  rw [if_neg (by simp [h2]), if_neg (fun hc => absurd hc.1 (by decide))]
  have hextract : ({ s with candidate_info := (extract_candidate_info
      "I have 4 years of experience" s.candidate_info s.current_stage) } :
        SessionState) = s := by
    rw [extract_gate _ _ _ (by rw [h1]; decide) (by rw [h1]; decide)
      (by rw [h1]; decide)]
  rw [hextract]
  simp only [handle_stage_transitions, end_conversation, h1, String.reduceEq,
    reduceIte, false_and, true_and]
  rw [if_neg (by simp [h4, truthy])]

/-- Witness for the amended C3 at the concrete scenario state. -/
theorem C3_witness :
    process_user_input exOracle "I have 4 years of experience" c3_state
      = (c3_state, exOracle.llmResponse) :=
  C3_amended_extraction_gated exOracle c3_state rfl rfl rfl rfl

/-- C7: from a live state in stage `technical_questions` with
`question_index = 4` and five stored questions, any input ends the session:
the stage becomes `"farewell"`, the response is the farewell closing
message, and `save_conversation` is invoked exactly once. -/
theorem C7_last_question_ends_session (o : Oracle) (input : String)
    (s : SessionState) (h1 : s.current_stage = "technical_questions")
    (h2 : s.question_index = 4) (h3 : s.tech_questions.length = 5)
    (h4 : s.conversation_ended = false) :
    (process_user_input o input s).1.current_stage = "farewell" ∧
    (process_user_input o input s).2 = closing_message s.candidate_info ∧
    (process_user_input o input s).1.saveCalls = s.saveCalls + 1 := by
  unfold process_user_input
  rw [if_neg (by simp [h4])]
  by_cases hkw : containsExit input = true
  · rw [if_pos ⟨hkw, by rw [h1]; decide⟩]
    exact ⟨rfl, rfl, rfl⟩
  · rw [if_neg (fun hc => hkw hc.1)]
    have hextract : ({ s with candidate_info := (extract_candidate_info
        input s.candidate_info s.current_stage) } : SessionState) = s := by
      rw [extract_gate _ _ _ (by rw [h1]; decide) (by rw [h1]; decide)
        (by rw [h1]; decide)]
    rw [hextract]
    simp only [handle_stage_transitions, end_conversation, h1, String.reduceEq,
      reduceIte, false_and, true_and]
    rw [if_neg (by rw [h2, h3]; omega)]
    exact ⟨rfl, rfl, rfl⟩

/-- Witness for C7 at the concrete scenario state. -/
theorem C7_witness :
    (process_user_input exOracle "my answer" c7_state).1.current_stage = "farewell" ∧
    (process_user_input exOracle "my answer" c7_state).2
      = closing_message c7_state.candidate_info ∧
    (process_user_input exOracle "my answer" c7_state).1.saveCalls
      = c7_state.saveCalls + 1 :=
  C7_last_question_ends_session exOracle "my answer" c7_state rfl rfl rfl rfl

/-- C5 counterexample: extraction does overwrite an email field that is
non-null but empty — Python truthiness treats `""` as unset, so
`info["email"] = ""` does not protect the field. -/
theorem C5_counterexample :
    ({ initialCandidateInfo with email := some "" } : CandidateInfo).email.isSome
      = true ∧
    (extract_candidate_info "a@b.cd"
        { initialCandidateInfo with email := some "" } "greeting").email
      ≠ ({ initialCandidateInfo with email := some "" } : CandidateInfo).email :=
  ⟨rfl, by decide⟩

/-- C5 amended: (1) whenever extraction runs (stage in the gate) with the
email field unset and the input contains an email-pattern match, the email
field is set to the text of the leftmost match; (2) extraction never changes
an email field that already holds a non-empty string (an empty string — a
non-null but falsy value — is treated as unset). -/
theorem C5_email_first_match :
    (∀ (input : String) (info : CandidateInfo) (stage : String),
      (stage = "greeting" ∨ stage = "collecting_info" ∨
        stage = "tech_stack_confirmation") →
      info.email = none →
      (∃ i, MatchesAt input.toList i) →
      ∃ i len, MatchesAt input.toList i ∧
        (∀ j, j < i → ¬ MatchesAt input.toList j) ∧
        EmailShape ((input.toList.drop i).take len) ∧
        (extract_candidate_info input info stage).email
          = some (String.mk ((input.toList.drop i).take len))) ∧
    (∀ (input : String) (info : CandidateInfo) (stage : String) (e : String),
      info.email = some e → e ≠ "" →
      (extract_candidate_info input info stage).email = some e) :=
  ⟨extract_email_finds, extract_email_preserved⟩

/-- Witness for C5 at concrete inputs. -/
theorem C5_witness :
    (∃ i len, MatchesAt "contact a@b.cd now".toList i ∧
      (∀ j, j < i → ¬ MatchesAt "contact a@b.cd now".toList j) ∧
      EmailShape (("contact a@b.cd now".toList.drop i).take len) ∧
      (extract_candidate_info "contact a@b.cd now" initialCandidateInfo
          "greeting").email
        = some (String.mk (("contact a@b.cd now".toList.drop i).take len))) ∧
    (extract_candidate_info "hello there"
        { initialCandidateInfo with email := some "x@y.zz" }
        "collecting_info").email = some "x@y.zz" :=
  ⟨C5_email_first_match.1 "contact a@b.cd now" initialCandidateInfo "greeting"
      (Or.inl rfl) rfl (exists_matchesAt_of_search _ 8 6 (by decide)),
   C5_email_first_match.2 "hello there"
      { initialCandidateInfo with email := some "x@y.zz" } "collecting_info"
      "x@y.zz" rfl (by decide)⟩

/-- C6 counterexample: the empty string is a non-null phone value with zero
digits, yet the validator accepts it — the `if v:` truthiness guard skips
validation for `""`. -/
theorem C6_counterexample :
    validate_phone (some "") = Except.ok (some "") ∧ ¬ 10 ≤ digitCount "" :=
  ⟨rfl, by decide⟩

/-- C6 amended: for every non-null, **non-empty** phone string, the
validator accepts the value exactly when it holds at least 10 digits after
stripping non-digits, and raises the validation error otherwise. -/
theorem C6_phone_digit_rule (v : String) (hv : v ≠ "") :
    (validate_phone (some v) = Except.ok (some v) ↔ 10 ≤ digitCount v) ∧
    (¬ 10 ≤ digitCount v →
      validate_phone (some v)
        = Except.error "Phone number must have at least 10 digits") := by
  simp only [validate_phone]
  rw [if_neg hv]
  by_cases h : 10 ≤ digitCount v
  · rw [if_pos h]
    exact ⟨⟨fun _ => h, fun _ => rfl⟩, fun hc => absurd h hc⟩
  · rw [if_neg h]
    refine ⟨⟨fun he => Except.noConfusion he, fun hh => absurd hh h⟩, fun _ => rfl⟩

/-- Witness for C6 on a phone string with exactly ten digits. -/
theorem C6_witness :
    (validate_phone (some "(555) 123-4567") = Except.ok (some "(555) 123-4567")
        ↔ 10 ≤ digitCount "(555) 123-4567") ∧
    (¬ 10 ≤ digitCount "(555) 123-4567" →
      validate_phone (some "(555) 123-4567")
        = Except.error "Phone number must have at least 10 digits") :=
  C6_phone_digit_rule "(555) 123-4567" (by decide)

/-- C8: with no API key, a tech stack whose lowering contains both
`"python"` and `"react"` yields exactly the concatenation of the five canned
Python questions and the five canned React questions truncated to the first
five (the Python block fills the whole returned list). -/
theorem C8_mock_python_react (o : Oracle) (ts : String)
    (hkey : truthy o.api_key = false)
    (hp : containsSub "python".toList (pyLower ts.toList) = true)
    (hr : containsSub "react".toList (pyLower ts.toList) = true) :
    generate_technical_questions o ts
      = (python_questions ++ react_questions).take 5 := by
  have hne : ts ≠ "" := by
    intro hc
    rw [hc] at hp
    exact absurd hp (by decide)
  obtain ⟨Z, hZ⟩ := get_mock_starts_python ts hp
  unfold generate_technical_questions
  rw [if_neg hne, if_pos (by simp [hkey]), hZ, take_five_python]
  exact (take_five_python react_questions).symm

/-- Witness for C8 on the stack "Python and React". -/
theorem C8_witness :
    generate_technical_questions exOracle "Python and React"
      = (python_questions ++ react_questions).take 5 :=
  C8_mock_python_react exOracle "Python and React" rfl (by decide) (by decide)

/-- C9: every failure inside `save_conversation` — an exception raised by
the core (first conjunct), an I/O failure (second), a malformed email
(third) or a malformed phone (fourth) — is caught and yields the return
value `false`; and `end_conversation` returns the farewell closing message
regardless of the oracle, i.e. regardless of whether persistence
succeeded. -/
theorem C9_persistence_best_effort :
    (∀ (ioOk : Bool) (ts : String) (ci : CandidateInfo) (msgs qs : List String)
        (e : String),
      save_conversation_core ioOk ts ci msgs qs = Except.error e →
      save_conversation ioOk ts ci msgs qs = false) ∧
    (∀ (ts : String) (ci : CandidateInfo) (msgs qs : List String),
      save_conversation false ts ci msgs qs = false) ∧
    (∀ (ioOk : Bool) (ts : String) (ci : CandidateInfo) (msgs qs : List String)
        (em : String), ci.email = some em → em ≠ "" → emailValid em = false →
      save_conversation ioOk ts ci msgs qs = false) ∧
    (∀ (ioOk : Bool) (ts : String) (ci : CandidateInfo) (msgs qs : List String)
        (ph : String), ci.phone = some ph → ph ≠ "" → ¬ 10 ≤ digitCount ph →
      save_conversation ioOk ts ci msgs qs = false) ∧
    (∀ (o : Oracle) (s : SessionState),
      (end_conversation o s).2 = closing_message s.candidate_info) := by
  refine ⟨?_, ?_, ?_, ?_, ?_⟩
  · intro ioOk ts ci msgs qs e h
    unfold save_conversation
    rw [h]
  · intro ts ci msgs qs
    unfold save_conversation save_conversation_core
    cases hve : validate_email ci.email <;>
      cases hvp : validate_phone ci.phone <;>
      cases hn : ci.name <;>
      simp [hve, hvp, hn]
  · intro ioOk ts ci msgs qs em he hne hvalid
    have hemail : validate_email ci.email = Except.error "Invalid email format" := by
      rw [he]
      simp only [validate_email]
      rw [if_neg hne, if_neg (by simp [hvalid])]
    unfold save_conversation save_conversation_core
    rw [hemail]
  · intro ioOk ts ci msgs qs ph hp hne hdig
    have hphone : validate_phone ci.phone
        = Except.error "Phone number must have at least 10 digits" := by
      rw [hp]
      simp only [validate_phone]
      rw [if_neg hne, if_neg hdig]
    unfold save_conversation save_conversation_core
    cases hve : validate_email ci.email <;> simp [hve, hphone]
  · intro o s
    rfl

/-- Witness for C9 at concrete failing saves. -/
theorem C9_witness :
    save_conversation false "2026-01-01" initialCandidateInfo [] [] = false ∧
    save_conversation true "2026-01-01"
      { initialCandidateInfo with
          name := some "Bob"
          email := some "not-an-email" } [] [] = false ∧
    (end_conversation exOracle initialState).2
      = closing_message initialState.candidate_info :=
  ⟨C9_persistence_best_effort.2.1 "2026-01-01" initialCandidateInfo [] [],
   C9_persistence_best_effort.2.2.1 true "2026-01-01"
     { initialCandidateInfo with
         name := some "Bob"
         email := some "not-an-email" } [] [] "not-an-email" rfl (by decide)
     (by decide),
   C9_persistence_best_effort.2.2.2.2 exOracle initialState⟩

/-- C10: a candidate dictionary whose `name` is still `None` is never
persisted: the record is never produced (the filename construction raises on
`None.lower()`, and the catch-all handler turns the failure into `False`). -/
theorem C10_unnamed_never_persisted (ioOk : Bool) (ts : String)
    (ci : CandidateInfo) (msgs qs : List String) (h : ci.name = none) :
    save_conversation ioOk ts ci msgs qs = false ∧
    ∀ r, save_conversation_core ioOk ts ci msgs qs ≠ Except.ok r := by
  unfold save_conversation save_conversation_core
  cases hve : validate_email ci.email <;> cases hvp : validate_phone ci.phone <;>
    simp [hve, hvp, h]

/-- Witness for C10 on the initial (all-`None`) candidate dictionary. -/
theorem C10_witness :
    save_conversation true "2026-01-01" initialCandidateInfo ["hi"] ["q?"] = false ∧
    ∀ r, save_conversation_core true "2026-01-01" initialCandidateInfo ["hi"] ["q?"]
        ≠ Except.ok r :=
  C10_unnamed_never_persisted true "2026-01-01" initialCandidateInfo ["hi"] ["q?"] rfl

end TalentScout
